import Mathlib

/-!
Verification of the yo-yo simulation core (ModSimPy case study `yoyo.ipynb`).

The notebook's executable code defines the physical parameters and a
`make_system` function computing the derived constants `I` and `k` and the
initial state; the slope function, event function and the event-terminated
integrator are described by the design specification (the notebook's solution
cells are empty), so they are modelled here from the specification's words.

All quantities are embedded as real numbers: the specification states the core
operates on plain real numbers in consistent units (unit bookkeeping is an
external concern, so the `radian` factors of the notebook are dropped).
-/

namespace Yoyo

noncomputable section

/-- The immutable record of physical constants, with the fields of the
notebook's `Params` object: axle radius `Rmin`, full-roll radius `Rmax`,
body radius `Rout`, total mass, string length `L`, gravitational
acceleration `g`, and nominal end time `t_end`. -/
structure Params where
  Rmin : ℝ
  Rmax : ℝ
  Rout : ℝ
  mass : ℝ
  L : ℝ
  g : ℝ
  t_end : ℝ

/-- The simulation state 4-vector: angle `theta`, angular velocity `omega`,
remaining (rolled) string length `y`, linear velocity `v`. -/
structure State where
  theta : ℝ
  omega : ℝ
  y : ℝ
  v : ℝ

/-- The system object returned by `make_system`: the initial state together
with the parameters and the derived constants `I` (moment of inertia) and
`k` (radius-growth coefficient). -/
structure System where
  init : State
  k : ℝ
  Rmin : ℝ
  Rmax : ℝ
  mass : ℝ
  I : ℝ
  g : ℝ
  t_end : ℝ

/-- Embedding of the notebook's `make_system`: builds the initial state
`(theta = 0, omega = 0, y = L, v = 0)` and computes
`I = mass * Rout**2 / 2` and `k = (Rmax**2 - Rmin**2) / 2 / L`
exactly as the source does (the `/ radian` unit factor is dropped, units
being external to the core). No validation is performed. Real division in
Lean is total; the source division's failure at `L = 0` is modelled
explicitly by `make_system_run` below. -/
def make_system (params : Params) : System :=
  { init := { theta := 0, omega := 0, y := params.L, v := 0 }
    k := (params.Rmax ^ 2 - params.Rmin ^ 2) / 2 / params.L
    Rmin := params.Rmin
    Rmax := params.Rmax
    mass := params.mass
    I := params.mass * params.Rout ^ 2 / 2
    g := params.g
    t_end := params.t_end }

/-- The concrete scenario of the notebook and the specification:
Rmin = 8 mm, Rmax = 16 mm, Rout = 35 mm, mass = 50 g, L = 1 m,
g = 9.8 m/s², t_end = 1 s. -/
def paramsConcrete : Params :=
  { Rmin := 0.008, Rmax := 0.016, Rout := 0.035, mass := 0.050,
    L := 1, g := 9.8, t_end := 1 }

/-- A parameter record violating the invariant `Rmin < Rmax`:
`make_system` accepts it without complaint and produces `k < 0`. -/
def paramsBad : Params :=
  { Rmin := 2, Rmax := 1, Rout := 1, mass := 1, L := 1, g := 9.8, t_end := 1 }

/-- The runtime error Python raises when the division by `L` in
`make_system` hits a zero denominator. -/
inductive PyError where
  | ZeroDivisionError
deriving DecidableEq

/-- Embedding of `make_system`'s evaluation with Python's partial division
made explicit: `(Rmax**2 - Rmin**2) / 2 / L` raises `ZeroDivisionError`
when `L = 0` (the other denominator in the body is the literal `2`, which
never raises), and otherwise the call returns the `System` of
`make_system`, whose formulas agree with real division on every non-zero
denominator. -/
def make_system_run (params : Params) : Except PyError System :=
  if params.L = 0 then .error .ZeroDivisionError
  else .ok (make_system params)

/-- A parameter record with `L = 0`: the division by `L` inside
`make_system` raises, so no `System` is returned. -/
def paramsZeroL : Params :=
  { Rmin := 0.008, Rmax := 0.016, Rout := 0.035, mass := 0.050,
    L := 0, g := 9.8, t_end := 1 }

end

noncomputable section

/-- Error kinds of the core, as listed by the specification's error-handling
design: negative radicand in the radius computation, event already satisfied
at the initial state, and step-count ceiling exceeded. -/
inductive SimError where
  | DomainError
  | InvalidInitialState
  | NonConvergence
deriving DecidableEq

/-- Why a successful simulation run terminated. -/
inductive TerminationReason where
  | EventTriggered
  | HorizonReached
deriving DecidableEq

/-- The derivative 4-vector returned by the slope function. -/
structure Deriv where
  dtheta : ℝ
  domega : ℝ
  dy : ℝ
  dv : ℝ

/-- Modelled from the spec: the effective-radius computation inside the
slope function (the notebook's slope-function solution cell is empty).
Computes `r = sqrt (2 * k * y + Rmin ^ 2)` and fails with `DomainError`
when the radicand is negative. -/
def radius (sys : System) (y : ℝ) : Except SimError ℝ :=
  if 2 * sys.k * y + sys.Rmin ^ 2 < 0 then .error .DomainError
  else .ok (Real.sqrt (2 * sys.k * y + sys.Rmin ^ 2))

/-- Modelled from the spec: the slope function mapping `(t, state)` to the
derivative vector (the notebook's solution cell is empty). With
`Istar = I + mass * r ^ 2` it returns
`(omega, mass * g * r / Istar, v, -(mass * g * r ^ 2) / Istar)`. -/
def slope (sys : System) (t : ℝ) (s : State) : Except SimError Deriv :=
  match radius sys s.y with
  | .error e => .error e
  | .ok r =>
      .ok { dtheta := s.omega
            domega := sys.mass * sys.g * r / (sys.I + sys.mass * r ^ 2)
            dy := s.v
            dv := -(sys.mass * sys.g * r ^ 2) / (sys.I + sys.mass * r ^ 2) }

/-- A parameter record satisfying `Rmin < Rmax ≤ Rout` and `L > 0` but with
a negative axle radius; it breaks the boundary identity `r 0 = Rmin`. -/
def paramsNeg : Params :=
  { Rmin := -1, Rmax := 1, Rout := 1, mass := 1, L := 1, g := 9.8, t_end := 1 }

/-- A concrete system with `k = 0` and `Rmin = 1`, for which the effective
radius is constantly `1`; used to evaluate the slope function and the
integrator at concrete inputs. -/
def sysUnit : System :=
  { init := { theta := 0, omega := 0, y := 1, v := 0 }
    k := 0, Rmin := 1, Rmax := 1, mass := 1, I := 1, g := 1, t_end := 1 }

end

/-- On `sysUnit` the radius computation always succeeds with `r = 1`. -/
lemma radius_sysUnit (y : ℝ) : radius sysUnit y = .ok 1 := by
  have hx : 2 * sysUnit.k * y + sysUnit.Rmin ^ 2 = 1 := by
    show (2 : ℝ) * 0 * y + 1 ^ 2 = 1
    ring
  unfold radius
  rw [hx, if_neg (by norm_num), Real.sqrt_one]

/-- On `sysUnit` the slope function returns `(omega, 1/2, v, -(1/2))` at
every state. -/
lemma slope_sysUnit (t : ℝ) (s : State) :
    slope sysUnit t s =
      .ok { dtheta := s.omega, domega := 1 / 2, dy := s.v, dv := -(1 / 2) } := by
  unfold slope
  rw [radius_sysUnit]
  norm_num [sysUnit]

/-- When the radicand is non-negative the slope function succeeds and
returns the closed-form derivative vector. -/
lemma slope_eq_of_nonneg (sys : System) (t : ℝ) (s : State)
    (hx : 0 ≤ 2 * sys.k * s.y + sys.Rmin ^ 2) :
    slope sys t s =
      .ok { dtheta := s.omega
            domega := sys.mass * sys.g * Real.sqrt (2 * sys.k * s.y + sys.Rmin ^ 2) /
              (sys.I + sys.mass * Real.sqrt (2 * sys.k * s.y + sys.Rmin ^ 2) ^ 2)
            dy := s.v
            dv := -(sys.mass * sys.g * Real.sqrt (2 * sys.k * s.y + sys.Rmin ^ 2) ^ 2) /
              (sys.I + sys.mass * Real.sqrt (2 * sys.k * s.y + sys.Rmin ^ 2) ^ 2) } := by
  unfold slope radius
  rw [if_neg (not_lt.2 hx)]

/-- C1: for every `Params` record, `make_system` computes the moment of
inertia `I = mass * Rout^2 / 2` and the radius-growth coefficient
`k = (Rmax^2 - Rmin^2) / (2 * L)`; at the concrete scenario
(Rmin = 0.008, Rmax = 0.016, Rout = 0.035, mass = 0.050, L = 1) it
returns `I = 3.0625e-5` and `k = 9.6e-5`. -/
theorem make_system_derived_constants :
    (∀ p : Params,
      (make_system p).I = p.mass * p.Rout ^ 2 / 2 ∧
      (make_system p).k = (p.Rmax ^ 2 - p.Rmin ^ 2) / (2 * p.L)) ∧
    (make_system paramsConcrete).I = 3.0625e-5 ∧
    (make_system paramsConcrete).k = 9.6e-5 := by
  refine ⟨fun p => ⟨rfl, ?_⟩, ?_, ?_⟩
  · show (p.Rmax ^ 2 - p.Rmin ^ 2) / 2 / p.L = _
    ring
  · show (0.050 : ℝ) * 0.035 ^ 2 / 2 = 3.0625e-5
    norm_num
  · show ((0.016 : ℝ) ^ 2 - 0.008 ^ 2) / 2 / 1 = 9.6e-5
    norm_num

/-- C3: for every `Params` record, the initial state built by `make_system`
is `theta = 0`, `omega = 0`, `y = L`, `v = 0`. -/
theorem make_system_initial_state (p : Params) :
    (make_system p).init = { theta := 0, omega := 0, y := p.L, v := 0 } :=
  rfl

/-- C10 counterexample: `make_system` does not return a `System` for every
numeric `Params` record — at `L = 0` (a record violating `L > 0`, inside
the claim's stated scope) the division by `L` raises `ZeroDivisionError`
instead. -/
theorem make_system_raises_at_L_zero :
    make_system_run paramsZeroL = .error .ZeroDivisionError := by
  have hL : paramsZeroL.L = 0 := rfl
  unfold make_system_run
  rw [if_pos hL]

/-- C10 amended: `make_system` never validates the `Params` invariant — for
every numeric record whose `L` is non-zero (so the division by `L` is
defined), including ones violating `Rmin < Rmax ≤ Rout`, the call succeeds
and returns the `System` whose fields are exactly the formulas applied to
the raw parameters; in particular on `paramsBad` (where `Rmax < Rmin`) it
succeeds and yields `k = -3/2 < 0`. At `L = 0` the division itself raises
`ZeroDivisionError`; that failure is the arithmetic evaluating, not an
invariant check. -/
theorem make_system_no_validation_amended :
    (∀ p : Params, p.L ≠ 0 →
      make_system_run p =
        .ok { init := { theta := 0, omega := 0, y := p.L, v := 0 }
              k := (p.Rmax ^ 2 - p.Rmin ^ 2) / 2 / p.L
              Rmin := p.Rmin, Rmax := p.Rmax, mass := p.mass
              I := p.mass * p.Rout ^ 2 / 2, g := p.g, t_end := p.t_end }) ∧
    paramsBad.Rmax < paramsBad.Rmin ∧ (make_system paramsBad).k < 0 := by
  refine ⟨fun p hL => ?_, by norm_num [paramsBad], ?_⟩
  · unfold make_system_run
    rw [if_neg hL]
    rfl
  · show ((1 : ℝ) ^ 2 - 2 ^ 2) / 2 / 1 < 0
    norm_num

/-- Witness for the amended C10 at `paramsBad`, whose `L = 1` is non-zero:
the call succeeds on an invariant-violating record. -/
theorem make_system_no_validation_amended_witness :
    paramsBad.L ≠ 0 ∧
    make_system_run paramsBad =
      .ok { init := { theta := 0, omega := 0, y := paramsBad.L, v := 0 }
            k := (paramsBad.Rmax ^ 2 - paramsBad.Rmin ^ 2) / 2 / paramsBad.L
            Rmin := paramsBad.Rmin, Rmax := paramsBad.Rmax
            mass := paramsBad.mass, I := paramsBad.mass * paramsBad.Rout ^ 2 / 2
            g := paramsBad.g, t_end := paramsBad.t_end } :=
  ⟨by norm_num [paramsBad],
   (make_system_no_validation_amended.1 paramsBad (by norm_num [paramsBad]))⟩

noncomputable section

/-- One accepted explicit integration step of size `dt`: the state advanced
along the derivative vector returned by the slope function. -/
def stepState (dt : ℝ) (s : State) (d : Deriv) : State :=
  { theta := s.theta + dt * d.dtheta
    omega := s.omega + dt * d.domega
    y := s.y + dt * d.dy
    v := s.v + dt * d.dv }

/-- Modelled from the spec: the step loop of the event-terminated integrator
(the notebook's solution cells are empty). Each iteration is one accepted
step of the explicit solver; the specification leaves the particular
Runge-Kutta member and its error control open, so the adaptive step-size
machinery is abstracted into the caller-supplied step `dt`. The loop stops
with `HorizonReached` when time reaches `te`, emits the crossing sample and
stops with `EventTriggered` when the event function `y` becomes
non-positive after an accepted step, and fails with `NonConvergence` when
the step budget runs out before either. -/
def simLoop (sys : System) (dt te : ℝ) :
    ℕ → ℝ → State → Except SimError (List (ℝ × State) × TerminationReason)
  | 0, t, _ =>
      if te ≤ t then .ok ([], .HorizonReached) else .error .NonConvergence
  | fuel + 1, t, s =>
      if te ≤ t then .ok ([], .HorizonReached)
      else
        match slope sys t s with
        | .error e => .error e
        | .ok d =>
            if (stepState dt s d).y ≤ 0 then
              .ok ([(t + dt, stepState dt s d)], .EventTriggered)
            else
              match simLoop sys dt te fuel (t + dt) (stepState dt s d) with
              | .error e => .error e
              | .ok (tr, reason) => .ok ((t + dt, stepState dt s d) :: tr, reason)

/-- Modelled from the spec: the `simulate` entry point. It fails fast with
`InvalidInitialState` when the event function is already non-positive at
the initial state, and otherwise runs the step loop with a maximum-steps
guard, prepending the initial sample to the trajectory. -/
def simulate (sys : System) (s0 : State) (t0 te dt : ℝ) (max_steps : ℕ) :
    Except SimError (List (ℝ × State) × TerminationReason) :=
  if s0.y ≤ 0 then .error .InvalidInitialState
  else
    match simLoop sys dt te max_steps t0 s0 with
    | .error e => .error e
    | .ok (tr, reason) => .ok ((t0, s0) :: tr, reason)

/-- Number of trajectory samples in a simulation outcome (zero when the
run failed: a failed run produces no trajectory). -/
def sampleCount : Except SimError (List (ℝ × State) × TerminationReason) → ℕ
  | .error _ => 0
  | .ok (tr, _) => tr.length

end

/-- Unfolding of the step loop at fuel zero. -/
lemma simLoop_zero (sys : System) (dt te t : ℝ) (s : State) :
    simLoop sys dt te 0 t s =
      if te ≤ t then .ok ([], .HorizonReached) else .error .NonConvergence :=
  rfl

/-- Unfolding of the step loop past the horizon. -/
lemma simLoop_horizon (sys : System) (dt te t : ℝ) (s : State) (fuel : ℕ)
    (ht : te ≤ t) :
    simLoop sys dt te fuel t s = .ok ([], .HorizonReached) := by
  cases fuel with
  | zero => rw [simLoop_zero, if_pos ht]
  | succ n => show (if te ≤ t then _ else _) = _; rw [if_pos ht]

/-- Unfolding of the step loop when the slope function fails. -/
lemma simLoop_succ_error (sys : System) (dt te t : ℝ) (s : State) (fuel : ℕ)
    (e : SimError) (ht : ¬ te ≤ t) (hs : slope sys t s = .error e) :
    simLoop sys dt te (fuel + 1) t s = .error e := by
  show (if te ≤ t then _ else _) = _
  rw [if_neg ht, hs]

/-- Unfolding of the step loop at an accepted step. -/
lemma simLoop_succ_ok (sys : System) (dt te t : ℝ) (s : State) (fuel : ℕ)
    (d : Deriv) (ht : ¬ te ≤ t) (hs : slope sys t s = .ok d) :
    simLoop sys dt te (fuel + 1) t s =
      (if (stepState dt s d).y ≤ 0 then
        .ok ([(t + dt, stepState dt s d)], .EventTriggered)
      else
        match simLoop sys dt te fuel (t + dt) (stepState dt s d) with
        | .error e => .error e
        | .ok (tr, reason) => .ok ((t + dt, stepState dt s d) :: tr, reason)) := by
  show (if te ≤ t then _ else _) = _
  rw [if_neg ht, hs]

/-- When the radicand is negative the slope function fails with
`DomainError`. -/
lemma slope_eq_of_neg (sys : System) (t : ℝ) (s : State)
    (hx : 2 * sys.k * s.y + sys.Rmin ^ 2 < 0) :
    slope sys t s = .error .DomainError := by
  unfold slope radius
  rw [if_pos hx]

/-- Sign facts about a successful slope evaluation: the angle and length
derivatives are the current velocities, the angular acceleration is
non-negative and the linear acceleration non-positive. -/
lemma slope_ok_spec (sys : System) (t : ℝ) (s : State) (d : Deriv)
    (hm : 0 ≤ sys.mass) (hg : 0 ≤ sys.g) (hI : 0 ≤ sys.I)
    (hd : slope sys t s = .ok d) :
    d.dtheta = s.omega ∧ d.dy = s.v ∧ 0 ≤ d.domega ∧ d.dv ≤ 0 := by
  by_cases hx : 2 * sys.k * s.y + sys.Rmin ^ 2 < 0
  · rw [slope_eq_of_neg sys t s hx] at hd
    exact Except.noConfusion hd
  · rw [slope_eq_of_nonneg sys t s (not_lt.1 hx)] at hd
    obtain rfl := Except.ok.inj hd
    have hr : (0 : ℝ) ≤ Real.sqrt (2 * sys.k * s.y + sys.Rmin ^ 2) :=
      Real.sqrt_nonneg _
    have hnum : 0 ≤ sys.mass * sys.g * Real.sqrt (2 * sys.k * s.y + sys.Rmin ^ 2) :=
      mul_nonneg (mul_nonneg hm hg) hr
    have hden : 0 ≤ sys.I + sys.mass * Real.sqrt (2 * sys.k * s.y + sys.Rmin ^ 2) ^ 2 :=
      add_nonneg hI (mul_nonneg hm (sq_nonneg _))
    refine ⟨rfl, rfl, div_nonneg hnum hden, ?_⟩
    show -(sys.mass * sys.g * Real.sqrt (2 * sys.k * s.y + sys.Rmin ^ 2) ^ 2) /
      (sys.I + sys.mass * Real.sqrt (2 * sys.k * s.y + sys.Rmin ^ 2) ^ 2) ≤ 0
    rw [neg_div, neg_nonpos]
    exact div_nonneg (mul_nonneg (mul_nonneg hm hg) (sq_nonneg _)) hden

/-- A successful step loop emits at most `fuel` samples: one per accepted
step. -/
lemma simLoop_length (sys : System) (dt te : ℝ) :
    ∀ (fuel : ℕ) (t : ℝ) (s : State) (tr : List (ℝ × State))
      (reason : TerminationReason),
      simLoop sys dt te fuel t s = .ok (tr, reason) → tr.length ≤ fuel := by
  intro fuel
  induction fuel with
  | zero =>
      intro t s tr reason h
      rw [simLoop_zero] at h
      split at h
      · have h' : ([] : List (ℝ × State)) = tr :=
          congrArg Prod.fst (Except.ok.inj h)
        rw [← h']
        simp
      · exact Except.noConfusion h
  | succ fuel ih =>
      intro t s tr reason h
      by_cases ht : te ≤ t
      · rw [simLoop_horizon sys dt te t s _ ht] at h
        have h' : ([] : List (ℝ × State)) = tr :=
          congrArg Prod.fst (Except.ok.inj h)
        rw [← h']
        simp
      · rcases hsl : slope sys t s with e | d
        · rw [simLoop_succ_error sys dt te t s fuel e ht hsl] at h
          exact Except.noConfusion h
        · rw [simLoop_succ_ok sys dt te t s fuel d ht hsl] at h
          split at h
          · have h' : [(t + dt, stepState dt s d)] = tr :=
              congrArg Prod.fst (Except.ok.inj h)
            rw [← h']
            simp
          · rcases hrec : simLoop sys dt te fuel (t + dt) (stepState dt s d)
              with e | ⟨tr', reason'⟩
            · rw [hrec] at h
              exact Except.noConfusion h
            · rw [hrec] at h
              have h' : Except.ok (((t + dt, stepState dt s d) :: tr', reason')
                  : List (ℝ × State) × TerminationReason)
                  = Except.ok (tr, reason) := h
              have h'' : (t + dt, stepState dt s d) :: tr' = tr :=
                congrArg Prod.fst (Except.ok.inj h')
              rw [← h'']
              have := ih (t + dt) (stepState dt s d) tr' reason' hrec
              simp only [List.length_cons]
              omega

/-- Monotonicity invariant of the step loop: starting from a state with
non-positive linear velocity and non-negative angular velocity, every
successful loop outcome has strictly increasing sample times,
non-increasing `y` and non-decreasing `theta` along the sample list headed
by the current sample. -/
lemma simLoop_chain (sys : System) (dt te : ℝ)
    (hm : 0 ≤ sys.mass) (hg : 0 ≤ sys.g) (hI : 0 ≤ sys.I) (hdt : 0 < dt) :
    ∀ (fuel : ℕ) (t : ℝ) (s : State) (tr : List (ℝ × State))
      (reason : TerminationReason),
      s.v ≤ 0 → 0 ≤ s.omega →
      simLoop sys dt te fuel t s = .ok (tr, reason) →
      List.Chain' (fun p q => p.1 < q.1) ((t, s) :: tr) ∧
      List.Chain' (fun p q => q.2.y ≤ p.2.y) ((t, s) :: tr) ∧
      List.Chain' (fun p q => p.2.theta ≤ q.2.theta) ((t, s) :: tr) := by
  intro fuel
  induction fuel with
  | zero =>
      intro t s tr reason hv hw h
      rw [simLoop_zero] at h
      split at h
      · have h' : ([] : List (ℝ × State)) = tr :=
          congrArg Prod.fst (Except.ok.inj h)
        rw [← h']
        exact ⟨List.chain'_singleton _, List.chain'_singleton _,
          List.chain'_singleton _⟩
      · exact Except.noConfusion h
  | succ fuel ih =>
      intro t s tr reason hv hw h
      by_cases ht : te ≤ t
      · rw [simLoop_horizon sys dt te t s _ ht] at h
        have h' : ([] : List (ℝ × State)) = tr :=
          congrArg Prod.fst (Except.ok.inj h)
        rw [← h']
        exact ⟨List.chain'_singleton _, List.chain'_singleton _,
          List.chain'_singleton _⟩
      · rcases hsl : slope sys t s with e | d
        · rw [simLoop_succ_error sys dt te t s fuel e ht hsl] at h
          exact Except.noConfusion h
        · obtain ⟨hdtheta, hdy, hdomega, hdv⟩ :=
            slope_ok_spec sys t s d hm hg hI hsl
          have htt : t < t + dt := by linarith
          have hvy : (stepState dt s d).y ≤ s.y := by
            show s.y + dt * d.dy ≤ s.y
            rw [hdy]
            nlinarith
          have htheta : s.theta ≤ (stepState dt s d).theta := by
            show s.theta ≤ s.theta + dt * d.dtheta
            rw [hdtheta]
            nlinarith
          have hv' : (stepState dt s d).v ≤ 0 := by
            show s.v + dt * d.dv ≤ 0
            nlinarith
          have hw' : 0 ≤ (stepState dt s d).omega := by
            show 0 ≤ s.omega + dt * d.domega
            nlinarith
          rw [simLoop_succ_ok sys dt te t s fuel d ht hsl] at h
          split at h
          · have h' : [(t + dt, stepState dt s d)] = tr :=
              congrArg Prod.fst (Except.ok.inj h)
            rw [← h']
            exact ⟨List.chain'_cons.2 ⟨htt, List.chain'_singleton _⟩,
              List.chain'_cons.2 ⟨hvy, List.chain'_singleton _⟩,
              List.chain'_cons.2 ⟨htheta, List.chain'_singleton _⟩⟩
          · rcases hrec : simLoop sys dt te fuel (t + dt) (stepState dt s d)
              with e | ⟨tr', reason'⟩
            · rw [hrec] at h
              exact Except.noConfusion h
            · rw [hrec] at h
              have h' : Except.ok (((t + dt, stepState dt s d) :: tr', reason')
                  : List (ℝ × State) × TerminationReason)
                  = Except.ok (tr, reason) := h
              have h'' : (t + dt, stepState dt s d) :: tr' = tr :=
                congrArg Prod.fst (Except.ok.inj h')
              rw [← h'']
              obtain ⟨c1, c2, c3⟩ :=
                ih (t + dt) (stepState dt s d) tr' reason' hv' hw' hrec
              exact ⟨List.chain'_cons.2 ⟨htt, c1⟩,
                List.chain'_cons.2 ⟨hvy, c2⟩,
                List.chain'_cons.2 ⟨htheta, c3⟩⟩

/-- One integration step on `sysUnit` in closed form. -/
lemma stepState_sysUnit (s : State) :
    stepState 2 s { dtheta := s.omega, domega := 1 / 2, dy := s.v, dv := -(1 / 2) } =
      { theta := s.theta + 2 * s.omega, omega := s.omega + 1,
        y := s.y + 2 * s.v, v := s.v - 1 } := by
  unfold stepState
  congr 1 <;> ring

/-- First concrete step on `sysUnit` from the initial state. -/
lemma stepUnit_one :
    stepState 2 { theta := 0, omega := 0, y := 1, v := 0 }
      { dtheta := (State.mk 0 0 1 0).omega, domega := 1 / 2,
        dy := (State.mk 0 0 1 0).v, dv := -(1 / 2) } =
      { theta := 0, omega := 1, y := 1, v := -1 } := by
  rw [stepState_sysUnit]
  congr 1 <;> norm_num

/-- Second concrete step on `sysUnit`. -/
lemma stepUnit_two :
    stepState 2 { theta := 0, omega := 1, y := 1, v := -1 }
      { dtheta := (State.mk 0 1 1 (-1)).omega, domega := 1 / 2,
        dy := (State.mk 0 1 1 (-1)).v, dv := -(1 / 2) } =
      { theta := 2, omega := 2, y := -1, v := -2 } := by
  rw [stepState_sysUnit]
  congr 1 <;> norm_num

/-- A concrete event-terminated run on `sysUnit`: with step size 2, horizon
10 and step budget 5, the string unwinds after two accepted steps. -/
lemma simRun_sysUnit :
    simulate sysUnit { theta := 0, omega := 0, y := 1, v := 0 } 0 10 2 5 =
      .ok ([((0 : ℝ), State.mk 0 0 1 0), (2, State.mk 0 1 1 (-1)),
            (4, State.mk 2 2 (-1) (-2))], .EventTriggered) := by
  have hB : simLoop sysUnit 2 10 4 (0 + 2) { theta := 0, omega := 1, y := 1, v := -1 } =
      .ok ([(0 + 2 + 2, State.mk 2 2 (-1) (-2))], .EventTriggered) := by
    have h4 : (4 : ℕ) = 3 + 1 := rfl
    rw [h4, simLoop_succ_ok sysUnit 2 10 (0 + 2) _ 3 _ (by norm_num)
      (slope_sysUnit (0 + 2) { theta := 0, omega := 1, y := 1, v := -1 })]
    rw [stepUnit_two, if_pos (by norm_num)]
  have hloop : simLoop sysUnit 2 10 5 0 { theta := 0, omega := 0, y := 1, v := 0 } =
      .ok ([(0 + 2, State.mk 0 1 1 (-1)), (0 + 2 + 2, State.mk 2 2 (-1) (-2))],
        .EventTriggered) := by
    have h5 : (5 : ℕ) = 4 + 1 := rfl
    rw [h5, simLoop_succ_ok sysUnit 2 10 0 _ 4 _ (by norm_num)
      (slope_sysUnit 0 { theta := 0, omega := 0, y := 1, v := 0 })]
    rw [stepUnit_one, if_neg (by norm_num), hB]
  unfold simulate
  rw [if_neg (by norm_num), hloop]
  norm_num

/-- C2 counterexample: the parameter record `paramsNeg` satisfies the
invariant as the claim states it (`Rmin < Rmax ≤ Rout`, `L > 0`), yet
`r 0 = sqrt (Rmin ^ 2) = 1 ≠ Rmin = -1`: without a sign condition on
`Rmin` the boundary identity `r 0 = Rmin` fails. -/
theorem radius_boundary_counterexample :
    (paramsNeg.Rmin < paramsNeg.Rmax ∧ paramsNeg.Rmax ≤ paramsNeg.Rout ∧
      0 < paramsNeg.L) ∧
    radius (make_system paramsNeg) 0 ≠ .ok paramsNeg.Rmin := by
  refine ⟨by norm_num [paramsNeg], ?_⟩
  have hx : 2 * (make_system paramsNeg).k * 0 + (make_system paramsNeg).Rmin ^ 2
      = 1 := by
    show 2 * (((1 : ℝ) ^ 2 - (-1 : ℝ) ^ 2) / 2 / 1) * 0 + (-1 : ℝ) ^ 2 = 1
    norm_num
  unfold radius
  rw [hx, if_neg (by norm_num), Real.sqrt_one]
  show Except.ok (1 : ℝ) ≠ Except.ok (-1 : ℝ)
  simp only [ne_eq, Except.ok.injEq]
  norm_num

/-- C2 amended: for every `Params` record satisfying `Rmin < Rmax ≤ Rout`
and `L > 0` and additionally `0 ≤ Rmin`, the radius function with `k` from
`make_system` satisfies `r 0 = Rmin` and `r L = Rmax`. -/
theorem radius_boundary_identities (p : Params)
    (h0 : 0 ≤ p.Rmin) (h1 : p.Rmin < p.Rmax) (h2 : p.Rmax ≤ p.Rout)
    (hL : 0 < p.L) :
    radius (make_system p) 0 = .ok p.Rmin ∧
    radius (make_system p) p.L = .ok p.Rmax := by
  have hk : (make_system p).k = (p.Rmax ^ 2 - p.Rmin ^ 2) / 2 / p.L := rfl
  have hRm : (make_system p).Rmin = p.Rmin := rfl
  have hL' : p.L ≠ 0 := ne_of_gt hL
  constructor
  · have hx : 2 * (make_system p).k * 0 + (make_system p).Rmin ^ 2
        = p.Rmin ^ 2 := by
      rw [hk, hRm]; ring
    unfold radius
    rw [hx, if_neg (not_lt.2 (sq_nonneg _)), Real.sqrt_sq h0]
  · have hx : 2 * (make_system p).k * p.L + (make_system p).Rmin ^ 2
        = p.Rmax ^ 2 := by
      rw [hk, hRm]
      field_simp
      ring
    unfold radius
    rw [hx, if_neg (not_lt.2 (sq_nonneg _)),
      Real.sqrt_sq (le_of_lt (lt_of_le_of_lt h0 h1))]

/-- Witness for the amended C2 at the concrete scenario. -/
theorem radius_boundary_identities_witness :
    radius (make_system paramsConcrete) 0 = .ok paramsConcrete.Rmin ∧
    radius (make_system paramsConcrete) paramsConcrete.L
      = .ok paramsConcrete.Rmax :=
  radius_boundary_identities paramsConcrete (by norm_num [paramsConcrete])
    (by norm_num [paramsConcrete]) (by norm_num [paramsConcrete])
    (by norm_num [paramsConcrete])

/-- C4: whenever the radicand `2 * k * y + Rmin ^ 2` is non-negative, the
slope function returns exactly the derivative vector
`(omega, mass * g * r / Istar, v, -(mass * g * r ^ 2) / Istar)` with
`r = sqrt (2 * k * y + Rmin ^ 2)` and `Istar = I + mass * r ^ 2`; and it is
pure and deterministic: the result does not depend on the time argument. -/
theorem slope_formula (sys : System) (t : ℝ) (s : State)
    (hx : 0 ≤ 2 * sys.k * s.y + sys.Rmin ^ 2) :
    slope sys t s =
      .ok { dtheta := s.omega
            domega := sys.mass * sys.g * Real.sqrt (2 * sys.k * s.y + sys.Rmin ^ 2) /
              (sys.I + sys.mass * Real.sqrt (2 * sys.k * s.y + sys.Rmin ^ 2) ^ 2)
            dy := s.v
            dv := -(sys.mass * sys.g * Real.sqrt (2 * sys.k * s.y + sys.Rmin ^ 2) ^ 2) /
              (sys.I + sys.mass * Real.sqrt (2 * sys.k * s.y + sys.Rmin ^ 2) ^ 2) } ∧
    ∀ u : ℝ, slope sys u s = slope sys t s :=
  ⟨slope_eq_of_nonneg sys t s hx, fun _ => rfl⟩

/-- Witness for C4 on the concrete system `sysUnit` at the initial state. -/
theorem slope_formula_witness :
    (0 : ℝ) ≤ 2 * sysUnit.k * 1 + sysUnit.Rmin ^ 2 ∧
    (slope sysUnit 0 { theta := 0, omega := 0, y := 1, v := 0 } =
      .ok { dtheta := 0
            domega := sysUnit.mass * sysUnit.g * Real.sqrt (2 * sysUnit.k * 1 + sysUnit.Rmin ^ 2) /
              (sysUnit.I + sysUnit.mass * Real.sqrt (2 * sysUnit.k * 1 + sysUnit.Rmin ^ 2) ^ 2)
            dy := 0
            dv := -(sysUnit.mass * sysUnit.g * Real.sqrt (2 * sysUnit.k * 1 + sysUnit.Rmin ^ 2) ^ 2) /
              (sysUnit.I + sysUnit.mass * Real.sqrt (2 * sysUnit.k * 1 + sysUnit.Rmin ^ 2) ^ 2) } ∧
    ∀ u : ℝ, slope sysUnit u { theta := 0, omega := 0, y := 1, v := 0 }
      = slope sysUnit 0 { theta := 0, omega := 0, y := 1, v := 0 }) :=
  ⟨by norm_num [sysUnit],
   slope_formula sysUnit 0 { theta := 0, omega := 0, y := 1, v := 0 }
     (by norm_num [sysUnit])⟩

/-- C5: the radius computation inside the slope function fails with
`DomainError` exactly when the radicand `2 * k * y + Rmin ^ 2` is negative,
and when it succeeds the returned radius is the true square root of the
radicand (no silent clamping). -/
theorem radius_fails_iff_neg_radicand (sys : System) (y : ℝ) :
    (radius sys y = .error .DomainError ↔ 2 * sys.k * y + sys.Rmin ^ 2 < 0) ∧
    ∀ r, radius sys y = .ok r → r = Real.sqrt (2 * sys.k * y + sys.Rmin ^ 2) := by
  unfold radius
  by_cases h : 2 * sys.k * y + sys.Rmin ^ 2 < 0
  · rw [if_pos h]
    exact ⟨⟨fun _ => h, fun _ => rfl⟩, fun r hr => by simp at hr⟩
  · rw [if_neg h]
    refine ⟨⟨fun hc => by simp at hc, fun hc => absurd hc h⟩, fun r hr => ?_⟩
    exact (Except.ok.inj hr).symm

/-- Witness for C5 on `sysUnit`: the radicand at `y = 1` is non-negative,
the computation succeeds, and the returned radius is the square root of the
radicand. -/
theorem radius_fails_iff_neg_radicand_witness :
    radius sysUnit 1 = .ok 1 ∧
    (1 : ℝ) = Real.sqrt (2 * sysUnit.k * 1 + sysUnit.Rmin ^ 2) :=
  ⟨radius_sysUnit 1,
   (radius_fails_iff_neg_radicand sysUnit 1).2 1 (radius_sysUnit 1)⟩

/-- C9: with positive mass, gravity and moment of inertia and a strictly
positive radicand (so `r > 0`), the linear acceleration `dv` returned by the
slope function satisfies `|dv| < g`: tension always reduces the net
downward acceleration. -/
theorem slope_accel_lt_g (sys : System) (t : ℝ) (s : State) (d : Deriv)
    (hm : 0 < sys.mass) (hg : 0 < sys.g) (hI : 0 < sys.I)
    (hx : 0 < 2 * sys.k * s.y + sys.Rmin ^ 2)
    (hd : slope sys t s = .ok d) :
    |d.dv| < sys.g := by
  rw [slope_eq_of_nonneg sys t s (le_of_lt hx)] at hd
  obtain rfl := (Except.ok.inj hd)
  have hr2 : Real.sqrt (2 * sys.k * s.y + sys.Rmin ^ 2) ^ 2
      = 2 * sys.k * s.y + sys.Rmin ^ 2 := Real.sq_sqrt (le_of_lt hx)
  show |(-(sys.mass * sys.g * Real.sqrt (2 * sys.k * s.y + sys.Rmin ^ 2) ^ 2) /
    (sys.I + sys.mass * Real.sqrt (2 * sys.k * s.y + sys.Rmin ^ 2) ^ 2))| < sys.g
  rw [hr2]
  have hden : 0 < sys.I + sys.mass * (2 * sys.k * s.y + sys.Rmin ^ 2) :=
    add_pos hI (mul_pos hm hx)
  have hnum : 0 ≤ sys.mass * sys.g * (2 * sys.k * s.y + sys.Rmin ^ 2) :=
    mul_nonneg (mul_nonneg (le_of_lt hm) (le_of_lt hg)) (le_of_lt hx)
  rw [neg_div, abs_neg, abs_of_nonneg (div_nonneg hnum (le_of_lt hden)),
    div_lt_iff hden]
  nlinarith [mul_pos hg hI]

/-- Witness for C9 on `sysUnit` at the initial state, where the slope
function returns `dv = -(1/2)` and `|-(1/2)| < g = 1`. -/
theorem slope_accel_lt_g_witness :
    (0 : ℝ) < sysUnit.mass ∧ (0 : ℝ) < sysUnit.g ∧ (0 : ℝ) < sysUnit.I ∧
    |(Deriv.mk 0 (1 / 2) 0 (-(1 / 2))).dv| < sysUnit.g :=
  ⟨by norm_num [sysUnit], by norm_num [sysUnit], by norm_num [sysUnit],
   slope_accel_lt_g sysUnit 0 { theta := 0, omega := 0, y := 1, v := 0 } _
     (by norm_num [sysUnit]) (by norm_num [sysUnit]) (by norm_num [sysUnit])
     (by norm_num [sysUnit])
     (slope_sysUnit 0 { theta := 0, omega := 0, y := 1, v := 0 })⟩

/-- C6: calling `simulate` with an initial state whose event-function value
`y` is already non-positive fails with `InvalidInitialState`; the error
outcome carries no trajectory, so no samples are emitted. -/
theorem simulate_invalid_initial (sys : System) (s0 : State) (t0 te dt : ℝ)
    (n : ℕ) (h : s0.y ≤ 0) :
    simulate sys s0 t0 te dt n = .error .InvalidInitialState := by
  unfold simulate
  rw [if_pos h]

/-- Witness for C6: a concrete call with initial `y = 0`. -/
theorem simulate_invalid_initial_witness :
    simulate sysUnit { theta := 0, omega := 0, y := 0, v := 0 } 0 1 1 5
      = .error .InvalidInitialState :=
  simulate_invalid_initial sysUnit { theta := 0, omega := 0, y := 0, v := 0 }
    0 1 1 5 le_rfl

/-- C7: every run of `simulate` emits at most `max_steps` samples beyond
the initial one (the step count is bounded by the guard, and a failed run
has no trajectory at all); and concretely, a maximum step count of 1 on a
run that needs two steps to reach the event fails with `NonConvergence`
instead of returning a truncated trajectory. -/
theorem simulate_step_guard :
    (∀ (sys : System) (s0 : State) (t0 te dt : ℝ) (n : ℕ),
      sampleCount (simulate sys s0 t0 te dt n) ≤ n + 1) ∧
    simulate sysUnit { theta := 0, omega := 0, y := 1, v := 0 } 0 10 2 1
      = .error .NonConvergence := by
  constructor
  · intro sys s0 t0 te dt n
    unfold simulate
    by_cases h : s0.y ≤ 0
    · rw [if_pos h]
      exact Nat.zero_le _
    · rw [if_neg h]
      rcases hrec : simLoop sys dt te n t0 s0 with e | ⟨tr, reason⟩
      · exact Nat.zero_le _
      · have hlen := simLoop_length sys dt te n t0 s0 tr reason hrec
        show ((t0, s0) :: tr).length ≤ n + 1
        simp only [List.length_cons]
        omega
  · unfold simulate
    rw [if_neg (by norm_num)]
    have hloop : simLoop sysUnit 2 10 1 0 { theta := 0, omega := 0, y := 1, v := 0 }
        = .error .NonConvergence := by
      have h1 : (1 : ℕ) = 0 + 1 := rfl
      rw [h1, simLoop_succ_ok sysUnit 2 10 0 _ 0 _ (by norm_num)
        (slope_sysUnit 0 { theta := 0, omega := 0, y := 1, v := 0 })]
      rw [stepUnit_one, if_neg (by norm_num), simLoop_zero, if_neg (by norm_num)]
    rw [hloop]

/-- C8: over every successful event-terminated run of `simulate` started
with non-positive linear velocity and non-negative angular velocity, on a
system with non-negative mass, gravity and moment of inertia and a positive
step size, the trajectory's sample times are strictly increasing, `y` is
non-increasing and `theta` is non-decreasing at every sampled time. -/
theorem simulate_event_monotone (sys : System) (s0 : State) (t0 te dt : ℝ)
    (n : ℕ) (traj : List (ℝ × State))
    (hm : 0 ≤ sys.mass) (hg : 0 ≤ sys.g) (hI : 0 ≤ sys.I) (hdt : 0 < dt)
    (hv : s0.v ≤ 0) (hw : 0 ≤ s0.omega)
    (h : simulate sys s0 t0 te dt n = .ok (traj, .EventTriggered)) :
    List.Chain' (fun p q => p.1 < q.1) traj ∧
    List.Chain' (fun p q => q.2.y ≤ p.2.y) traj ∧
    List.Chain' (fun p q => p.2.theta ≤ q.2.theta) traj := by
  unfold simulate at h
  split at h
  · exact Except.noConfusion h
  · rcases hrec : simLoop sys dt te n t0 s0 with e | ⟨tr, reason⟩
    · rw [hrec] at h
      exact Except.noConfusion h
    · rw [hrec] at h
      have h' : Except.ok (((t0, s0) :: tr, reason)
          : List (ℝ × State) × TerminationReason)
          = Except.ok (traj, .EventTriggered) := h
      have h'' : (t0, s0) :: tr = traj := congrArg Prod.fst (Except.ok.inj h')
      rw [← h'']
      exact simLoop_chain sys dt te hm hg hI hdt n t0 s0 tr reason hv hw hrec

/-- Witness for C8 on the concrete event-terminated run of `sysUnit`. -/
theorem simulate_event_monotone_witness :
    List.Chain' (fun p q => p.1 < q.1)
      [((0 : ℝ), State.mk 0 0 1 0), (2, State.mk 0 1 1 (-1)),
       (4, State.mk 2 2 (-1) (-2))] ∧
    List.Chain' (fun p q => q.2.y ≤ p.2.y)
      [((0 : ℝ), State.mk 0 0 1 0), (2, State.mk 0 1 1 (-1)),
       (4, State.mk 2 2 (-1) (-2))] ∧
    List.Chain' (fun p q => p.2.theta ≤ q.2.theta)
      [((0 : ℝ), State.mk 0 0 1 0), (2, State.mk 0 1 1 (-1)),
       (4, State.mk 2 2 (-1) (-2))] :=
  simulate_event_monotone sysUnit { theta := 0, omega := 0, y := 1, v := 0 }
    0 10 2 5 _ (by norm_num [sysUnit]) (by norm_num [sysUnit])
    (by norm_num [sysUnit]) (by norm_num) le_rfl le_rfl simRun_sysUnit

end Yoyo
